import Mathlib

/-!
Verification development for the `stackparse` goroutine stack-trace tool.

The definitions below are a shallow embedding of the Go sources:
* the `stacks` package (`Stack`, `Frame`, `CreatedBy`, `ParseStacks`,
  `parseEntryLine`, the filter combinators, the comparators), and
* the `main` package (`summarize`, `compWaitStats`).

Conventions of the embedding:
* Go strings are Lean `String`s, but every Go string operation is
  implemented structurally over `String.data : List Char` so that all
  definitions evaluate inside the kernel.  Inputs in this domain are
  ASCII, where Go's byte indexing and `List Char` indexing coincide.
* Go's `int64` / `time.Duration` are `Int` with explicit two's-complement
  wrapping (`wrap64`) at the arithmetic that can overflow in Go.
* Fallible Go code returns `Except`; a Go runtime panic that the code
  recovers from is an explicit error value.
-/

namespace Stackparse

/-- Characters for which Go's `unicode.IsSpace` is true in the Latin-1 range
(the set used by `strings.TrimSpace` and `strings.Fields`). -/
def isGoSpace (c : Char) : Bool :=
  c = ' ' || c = '\t' || c = '\n' || c = (Char.ofNat 11) || c = (Char.ofNat 12) ||
  c = '\r' || c = (Char.ofNat 0x85) || c = (Char.ofNat 0xA0)

/-- `strings.HasPrefix`. -/
def goHasPref (s pre : String) : Bool := pre.data.isPrefixOf s.data

/-- `strings.TrimPrefix`: drop `pre` from the front of `s` when present. -/
def goTrimPref (s pre : String) : String :=
  if pre.data.isPrefixOf s.data then String.mk (s.data.drop pre.data.length) else s

/-- Trailing part of `strings.Trim`: drop characters of `cut` from both ends. -/
def goTrimChars (cut : List Char) (l : List Char) : List Char :=
  ((l.dropWhile (cut.contains ·)).reverse.dropWhile (cut.contains ·)).reverse

/-- `strings.Trim s cut` (cut given as a string of characters). -/
def goTrim (s cut : String) : String := String.mk (goTrimChars cut.data s.data)

/-- `strings.TrimSpace`. -/
def goTrimSpace (s : String) : String :=
  String.mk (((s.data.dropWhile isGoSpace).reverse.dropWhile isGoSpace).reverse)

/-- Worker for `goSplitOn`; `fuel` bounds the recursion and is always called
with more fuel than there are characters, so the fuel branch is unreachable
for the non-empty separators this code uses. -/
def splitAux (sep : List Char) : Nat → List Char → List Char → List (List Char)
  | _, [], acc => [acc.reverse]
  | 0, l, acc => [acc.reverse ++ l]
  | fuel + 1, c :: rest, acc =>
    if sep.isPrefixOf (c :: rest) then
      acc.reverse :: splitAux sep fuel ((c :: rest).drop sep.length) []
    else
      splitAux sep fuel rest (c :: acc)

/-- `strings.Split s sep` for a non-empty separator `sep` (the only way this
code calls it): leftmost-first, non-overlapping matches. -/
def goSplitOn (s sep : String) : List String :=
  if sep.data.isEmpty then [s]
  else (splitAux sep.data (s.data.length + 1) s.data []).map String.mk

/-- `strings.Join`. -/
def goJoin (parts : List String) (sep : String) : String := String.intercalate sep parts

/-- Worker for `goFields`. -/
def fieldsAux : List Char → List Char → List (List Char)
  | [], acc => if acc.isEmpty then [] else [acc.reverse]
  | c :: rest, acc =>
    if isGoSpace c then
      if acc.isEmpty then fieldsAux rest [] else acc.reverse :: fieldsAux rest []
    else fieldsAux rest (c :: acc)

/-- `strings.Fields`: split around runs of white space, no empty fields. -/
def goFields (s : String) : List String := (fieldsAux s.data []).map String.mk

/-- Index of the last occurrence of `c`, if any (`strings.LastIndexByte` for
ASCII input). -/
def lastIdxOf (c : Char) (l : List Char) : Option Nat :=
  (l.foldl (fun (st : Nat × Option Nat) d =>
    (st.1 + 1, if d = c then some st.1 else st.2)) (0, none)).2

/-- Two's-complement wrap-around of Go `int64` arithmetic. -/
def wrap64 (x : Int) : Int := (x + 2 ^ 63) % 2 ^ 64 - 2 ^ 63

/-- Decimal digit value of a character, if it is one. -/
def digitVal (c : Char) : Option Nat :=
  if '0' ≤ c ∧ c ≤ '9' then some (c.toNat - '0'.toNat) else none

/-- Value of a character as a digit in base `b ≤ 16` (Go `strconv` lower/upper
hex letters), if valid. -/
def digitValBase (b : Nat) (c : Char) : Option Nat :=
  let v : Option Nat :=
    if '0' ≤ c ∧ c ≤ '9' then some (c.toNat - '0'.toNat)
    else if 'a' ≤ c ∧ c ≤ 'z' then some (c.toNat - 'a'.toNat + 10)
    else if 'A' ≤ c ∧ c ≤ 'Z' then some (c.toNat - 'A'.toNat + 10)
    else none
  match v with
  | some d => if d < b then some d else none
  | none => none

/-- Accumulate digits of base `b`, allowing `_` separators when `underOk`
(they are validated separately, as in Go's `underscoreOK`). -/
def digitsToNat (b : Nat) (underOk : Bool) : List Char → Nat → Option Nat
  | [], acc => some acc
  | c :: rest, acc =>
    if underOk ∧ c = '_' then digitsToNat b underOk rest acc
    else
      match digitValBase b c with
      | some d => digitsToNat b underOk rest (acc * b + d)
      | none => none

/-- One step of Go `strconv`'s `underscoreOK` scan: `saw` is the class of the
previous character (`^` start, `0` digit/base prefix, `_` underscore,
`!` other); `none` means the string is rejected. -/
def underscoreStep (hex : Bool) (saw : Char) (c : Char) : Option Char :=
  if ('0' ≤ c ∧ c ≤ '9') ∨ (hex ∧ (('a' ≤ c ∧ c ≤ 'f') ∨ ('A' ≤ c ∧ c ≤ 'F'))) then some '0'
  else if c = '_' then (if saw = '0' then some '_' else none)
  else if saw = '_' then none
  else some '!'

/-- Scan loop of `underscoreOK`. -/
def underscoreScan (hex : Bool) (saw : Char) : List Char → Option Char
  | [] => some saw
  | c :: rest =>
    match underscoreStep hex saw c with
    | some saw2 => underscoreScan hex saw2 rest
    | none => none

/-- Go `strconv`'s `underscoreOK`: underscores may appear only between digits
or between a base prefix and a digit. -/
def underscoreOK (l : List Char) : Bool :=
  let l := match l with
    | c :: rest => if c = '-' ∨ c = '+' then rest else c :: rest
    | [] => []
  let pref : List Char × Bool × Bool :=
    match l with
    | '0' :: c :: rest =>
      if c = 'b' ∨ c = 'B' ∨ c = 'o' ∨ c = 'O' ∨ c = 'x' ∨ c = 'X' then
        (rest, c = 'x' ∨ c = 'X', true)
      else ('0' :: c :: rest, false, false)
    | _ => (l, false, false)
  match underscoreScan pref.2.1 (if pref.2.2 then '0' else '^') pref.1 with
  | some saw => saw ≠ '_'
  | none => false

/-- Render a character like Go `strconv.Quote` does for the character classes
appearing in this domain (printable ASCII plus the common escapes). -/
def goQuoteChar (c : Char) : String :=
  if c = '\\' then "\\\\"
  else if c = '\"' then "\\\""
  else if c = '\n' then "\\n"
  else if c = '\t' then "\\t"
  else if c = '\r' then "\\r"
  else String.mk [c]

/-- Go `%q` of a string (`strconv.Quote`), for the characters this code meets. -/
def goQuote (s : String) : String :=
  "\"" ++ String.join (s.data.map goQuoteChar) ++ "\""

/-- `strconv.Atoi`: optional sign, decimal digits only, `int64` range check.
The error value is the message of the `*NumError` Go would return. -/
def goAtoi (s : String) : Except String Int :=
  let synErr : Except String Int :=
    .error ("strconv.Atoi: parsing " ++ goQuote s ++ ": invalid syntax")
  let rngErr : Except String Int :=
    .error ("strconv.Atoi: parsing " ++ goQuote s ++ ": value out of range")
  let (neg, body) : Bool × List Char :=
    match s.data with
    | '-' :: rest => (true, rest)
    | '+' :: rest => (false, rest)
    | l => (false, l)
  if body.isEmpty then synErr
  else
    match digitsToNat 10 false body 0 with
    | none => synErr
    | some n =>
      if neg then
        if n > 2 ^ 63 then rngErr else .ok (-(n : Int))
      else
        if n ≥ 2 ^ 63 then rngErr else .ok (n : Int)

/-- `strconv.ParseInt(s, 0, 64)`: base detected from a `0x`/`0o`/`0b`/`0`
prefix, underscores allowed as digit separators, `int64` range check. -/
def goParseInt0 (s : String) : Except String Int :=
  let synErr : Except String Int :=
    .error ("strconv.ParseInt: parsing " ++ goQuote s ++ ": invalid syntax")
  let rngErr : Except String Int :=
    .error ("strconv.ParseInt: parsing " ++ goQuote s ++ ": value out of range")
  let (neg, body) : Bool × List Char :=
    match s.data with
    | '-' :: rest => (true, rest)
    | '+' :: rest => (false, rest)
    | l => (false, l)
  let (base, digits) : Nat × List Char :=
    match body with
    | '0' :: c :: rest =>
      if (c = 'b' ∨ c = 'B') ∧ rest ≠ [] then (2, rest)
      else if (c = 'o' ∨ c = 'O') ∧ rest ≠ [] then (8, rest)
      else if (c = 'x' ∨ c = 'X') ∧ rest ≠ [] then (16, rest)
      else (8, c :: rest)
    | l => (10, l)
  if body.isEmpty then synErr
  else if ¬ underscoreOK s.data then synErr
  else if digits.isEmpty ∨ digits = ['_'] then synErr
  else
    match digitsToNat base true digits 0 with
    | none => synErr
    | some n =>
      if neg then
        if n > 2 ^ 63 then rngErr else .ok (-(n : Int))
      else
        if n ≥ 2 ^ 63 then rngErr else .ok (n : Int)

/-! ## Data model (`stacks` package) -/

/-- One call frame of a goroutine stack (`type Frame struct`). -/
structure Frame where
  Function : String
  Params : List String
  File : String
  Line : Int
  Entry : Int
deriving Repr, DecidableEq, Inhabited

/-- The optional creator record of a stack (`type CreatedBy struct`); a stack
parsed without a `created by` line keeps the zero value. -/
structure CreatedBy where
  Function : String
  File : String
  Line : Int
  Entry : Int
deriving Repr, DecidableEq, Inhabited

/-- One goroutine stack (`type Stack struct`); `WaitTime` is a
`time.Duration`, i.e. nanoseconds in an `int64`. -/
structure Stack where
  Number : Int
  State : String
  WaitTime : Int
  Frames : List Frame
  ThreadLocked : Bool
  CreatedBy : CreatedBy
deriving Repr, DecidableEq, Inhabited

/-- `time.Minute` in nanoseconds. -/
def timeMinute : Int := 60000000000

/-! ## Parser (`ParseStacks` and helpers)

Error values model the `(nil, error)` returns of the Go code.  The
`defer`/`recover` block of `ParseStacks` wraps every error — including a
recovered runtime panic — as `line <n>: <message>`; we model that pair as
`Nat × String`.  The messages standing for recovered panics carry the text of
the corresponding Go runtime error (the `debug.Stack()` dump is omitted). -/

/-- Message of the recovered panic when the code indexes past the end of the
split header line (`parts[1]`). -/
def panicIndexMsg : String := "[panic] runtime error: index out of range"

/-- Message of the recovered panic when the code dereferences the nil current
stack (`cur.Frames` / `cur.CreatedBy` with no stack in progress). -/
def panicNilMsg : String :=
  "[panic] runtime error: invalid memory address or nil pointer dereference"

/-- Message of the recovered panic when the function line slice
`line[n+1 : len(line)-1]` is invalid (a `(` as last character). -/
def panicSliceMsg : String := "[panic] runtime error: slice bounds out of range"

/-- `parseEntryLine`: split a `file:line [entry]` fragment.  Note the Go bug
kept faithfully here: the "expected a colon" message formats the named
`int64` return `line` (still `0`) with `%q`, rendering `'\x00'`, not the
offending input. -/
def parseEntryLine (s : String) : Except String (String × Int × Int) :=
  let parts := goSplitOn s ":"
  let file := goTrim (parts.headD "") " \t\n"
  if parts.length ≠ 2 then
    .error ("expected a colon: " ++ "'\\x00'")
  else
    let lineAndEntry := goSplitOn (parts.getD 1 "") " "
    match goParseInt0 (lineAndEntry.headD "") with
    | .error _ => .error ("error parsing line number: " ++ lineAndEntry.headD "")
    | .ok lnum =>
      if lineAndEntry.length > 1 then
        match goParseInt0 (lineAndEntry.getD 1 "") with
        | .error _ => .error ("error parsing entry offset: " ++ lineAndEntry.getD 1 "")
        | .ok entry => .ok (file, lnum, entry)
      else .ok (file, lnum, 0)

/-- The first line of a frame: function name up to the last `(`, parameters
split on `", "` between it and the byte before the end of the line.  A `(` as
the final character makes the Go slice panic. -/
def parseFuncLine (line : String) : Except String Frame :=
  match lastIdxOf '(' line.data with
  | none => .ok { Function := line, Params := [], File := "", Line := 0, Entry := 0 }
  | some n =>
    if line.data.length - 1 < n + 1 then .error panicSliceMsg
    else
      .ok { Function := String.mk (line.data.take n)
            Params := goSplitOn (String.mk ((line.data.take (line.data.length - 1)).drop (n + 1))) ", "
            File := "", Line := 0, Entry := 0 }

/-- The extras loop of the header parser: walk `state[1:]`, setting the
locked flag on the literal `" locked to thread"` segment and otherwise
(re)parsing `state[1]` as `"<N> minutes"`. -/
def headerExtras (state1 : String) : List String → Int → Bool → Except String (Int × Bool)
  | [], timev, locked => .ok (timev, locked)
  | s :: rest, timev, locked =>
    if s = " locked to thread" then headerExtras state1 rest timev true
    else
      let timeparts := goFields state1
      if timeparts.length ≠ 2 then
        .error ("weirdly formatted time string: " ++ goQuote state1)
      else
        match goAtoi (timeparts.headD "") with
        | .error e => .error e
        | .ok val => headerExtras state1 rest (wrap64 (val * timeMinute)) locked

/-- Parse a `goroutine <num> [<state>...]:` header line into a fresh stack.
`parts[1]` on a headerless split is the recovered index panic. -/
def parseHeaderLine (line : String) : Except String Stack :=
  let parts := goSplitOn line " "
  match parts.get? 1 with
  | none => .error panicIndexMsg
  | some numStr =>
    match goAtoi numStr with
    | .error _ => .error ("unexpected formatting: " ++ line)
    | .ok num =>
      let state := goSplitOn (goTrim (goJoin (parts.drop 2) " ") "[]:") ","
      match headerExtras (state.getD 1 "") (state.drop 1) 0 false with
      | .error e => .error e
      | .ok tl =>
        .ok { Number := num, State := state.headD "", WaitTime := tl.1,
              ThreadLocked := tl.2, Frames := [], CreatedBy := default }

/-- The per-line prefix strip: `re.Find` is abstracted as the byte length of
the leftmost match (`none` models a nil pattern).  A whole-line match blanks
the line; otherwise that many leading bytes are cut and the rest trimmed. -/
def stripPref (re : Option (String → Nat)) (line : String) : String :=
  match re with
  | none => line
  | some find =>
    let n := find line
    if n = line.data.length then "" else goTrimSpace (String.mk (line.data.drop n))

/-- The scan loop of `ParseStacks`: one line at a time, with the current
stack, the emitted stack list and the pending frame threaded through.  `lineNo`
is the count of lines read by the loop header (a line consumed inside the
`created by` branch is not counted, exactly as in the Go code). -/
def parseStacksLoop (re : Option (String → Nat)) :
    List String → Nat → Option Stack → List Stack → Option Frame →
    Except (Nat × String) (List Stack)
  | [], _, cur, stks, _ => .ok (stks ++ cur.toList)
  | rawLine :: rest, lineNo, cur, stks, frame =>
    let n := lineNo + 1
    let line := stripPref re rawLine
    if goHasPref line "goroutine" then
      let stks := stks ++ cur.toList
      match parseHeaderLine line with
      | .error msg => .error (n, msg)
      | .ok st => parseStacksLoop re rest n (some st) stks frame
    else if line = "" then
      parseStacksLoop re rest n none (stks ++ cur.toList) frame
    else if goHasPref line "created by" then
      let fn := goTrimPref line "created by "
      match rest with
      | [] => .error (n, "no file info after 'created by' line on line " ++ toString n)
      | next :: rest2 =>
        match parseEntryLine next with
        | .error msg => .error (n, msg)
        | .ok fle =>
          match cur with
          | none => .error (n, panicNilMsg)
          | some st =>
            parseStacksLoop re rest2 n
              (some { st with CreatedBy :=
                { Function := fn, File := fle.1, Line := fle.2.1, Entry := fle.2.2 } })
              stks frame
    else
      match frame with
      | none =>
        match parseFuncLine line with
        | .error msg => .error (n, msg)
        | .ok f => parseStacksLoop re rest n cur stks (some f)
      | some f =>
        match parseEntryLine line with
        | .error msg => .error (n, msg)
        | .ok fle =>
          match cur with
          | none => .error (n, panicNilMsg)
          | some st =>
            parseStacksLoop re rest n
              (some { st with Frames :=
                st.Frames ++ [{ f with File := fle.1, Line := fle.2.1, Entry := fle.2.2 }] })
              stks none

/-- `ParseStacks`: the whole input (already split into lines) to either the
complete stack sequence or a single line-annotated error. -/
def ParseStacks (re : Option (String → Nat)) (lines : List String) :
    Except (Nat × String) (List Stack) :=
  parseStacksLoop re lines 0 none [] none

/-! ## Rendering (`Stack.String`, `Frame.String`, `CreatedBy.String`) -/

/-- Hex digits of a natural number (worker, fuel-driven). -/
def natToHexAux : Nat → Nat → List Char → List Char
  | 0, _, acc => acc
  | fuel + 1, n, acc =>
    let d := n % 16
    let c := if d < 10 then Char.ofNat ('0'.toNat + d) else Char.ofNat ('a'.toNat + d - 10)
    if n < 16 then c :: acc else natToHexAux fuel (n / 16) (c :: acc)

/-- Lower-case hexadecimal rendering of a natural number. -/
def natToHex (n : Nat) : String := String.mk (natToHexAux (n + 1) n [])

/-- Go's `%+#x` of an `int64`: always-signed `0x` hexadecimal. -/
def goHexPlus (i : Int) : String :=
  if i < 0 then "-0x" ++ natToHex (-i).toNat else "+0x" ++ natToHex i.toNat

/-- `Frame.String`: `"<function>(<params>)\n\t<file>:<line>[ <entry>]"`. -/
def frameString (f : Frame) : String :=
  f.Function ++ "(" ++ goJoin f.Params ", " ++ ")\n" ++
  "\t" ++ f.File ++ ":" ++ toString f.Line ++
  (if f.Entry ≠ 0 then " " ++ goHexPlus f.Entry else "")

/-- `CreatedBy.String`: `"created by <function>\n\t<file>:<line>[ <entry>]"`.
Note that the Go method is defined on the value type and is called
unconditionally by `Stack.String`. -/
def createdByString (c : CreatedBy) : String :=
  "created by " ++ c.Function ++ "\n" ++
  "\t" ++ c.File ++ ":" ++ toString c.Line ++
  (if c.Entry ≠ 0 then " " ++ goHexPlus c.Entry else "")

/-- `int(s.WaitTime.Minutes())`: whole minutes of a duration, truncated toward
zero (exact for the whole-minute durations this parser produces). -/
def durMinutes (d : Int) : Int := d.tdiv timeMinute

/-- `Stack.String`: header, frames, then — unconditionally — the created-by
trailer and a final newline. -/
def stackString (s : Stack) : String :=
  let waitM := durMinutes s.WaitTime
  let state := if waitM ≠ 0 then s.State ++ ", " ++ toString waitM ++ " minutes" else s.State
  "goroutine " ++ toString s.Number ++ " [" ++ state ++ "]:\n" ++
  String.join (s.Frames.map (fun f => frameString f ++ "\n")) ++
  (createdByString s.CreatedBy ++ "\n")

/-! ## Filters and comparators -/

/-- Worker for `goContains`: does `sub` start at any position of the list? -/
def containsAux (sub : List Char) : List Char → Bool
  | [] => sub.isEmpty
  | c :: rest => sub.isPrefixOf (c :: rest) || containsAux sub rest

/-- `strings.Contains`. -/
def goContains (s sub : String) : Bool := containsAux sub.data s.data

/-- `HasFrameMatching`: some frame's function name or `file:line` rendering
contains the pattern. -/
def HasFrameMatching (pattern : String) (s : Stack) : Bool :=
  s.Frames.any fun f =>
    goContains f.Function pattern || goContains (f.File ++ ":" ++ toString f.Line) pattern

/-- `MatchState`: exact state equality. -/
def MatchState (st : String) (s : Stack) : Bool := s.State = st

/-- `TimeGreaterThan`: inclusive wait-time threshold. -/
def TimeGreaterThan (d : Int) (s : Stack) : Bool := s.WaitTime ≥ d

/-- `Negate`. -/
def Negate (f : Stack → Bool) (s : Stack) : Bool := ! f s

/-- `ApplyFilters`: keep the stacks passing every filter, in input order. -/
def ApplyFilters : List Stack → List (Stack → Bool) → List Stack
  | [], _ => []
  | s :: rest, filters =>
    if filters.all (fun f => f s) then s :: ApplyFilters rest filters
    else ApplyFilters rest filters

/-- `CompWaitTime`. -/
def CompWaitTime (a b : Stack) : Bool := decide (a.WaitTime < b.WaitTime)

/-- `CompDepth`. -/
def CompDepth (a b : Stack) : Bool := decide (a.Frames.length < b.Frames.length)

/-- `CompGoroNum`. -/
def CompGoroNum (a b : Stack) : Bool := decide (a.Number < b.Number)

/-! ## The sort used on `StackSorter` (Go ≤1.18 `sort.Sort`)

`main` sorts with `sort.Sort(util.StackSorter{...})`, whose `Swap` is a plain
element exchange.  `sort.Sort` is the standard library's unstable
introsort: quicksort with median-of-three pivoting, a heap-sort depth
fallback, and — for ranges of at most 12 elements — a gap-6 Shell pass
followed by insertion sort.  The embedding below mirrors that algorithm
(Go 1.5–1.18 `sort/sort.go`, the generation this repository builds against);
out-of-range accesses never occur on the reachable index ranges, and the
`fuel` parameters strictly dominate the corresponding Go loop counts. -/

/-- Out-of-range-safe element access (all reachable accesses are in range). -/
def nthD {α : Type} [Inhabited α] (l : List α) (i : Nat) : α := l.getD i default

/-- `data.Swap(i, j)`. -/
def lswap {α : Type} (l : List α) (i j : Nat) : List α :=
  if h : i < l.length ∧ j < l.length then
    (l.set i (l.get ⟨j, h.2⟩)).set j (l.get ⟨i, h.1⟩)
  else l

/-- `data.Less(i, j)`. -/
def lessAt {α : Type} [Inhabited α] (less : α → α → Bool) (l : List α) (i j : Nat) : Bool :=
  less (nthD l i) (nthD l j)

/-- Inner loop of `insertionSort`: move element `j` left while it is less
than its predecessor (and `j > a`). -/
def insertionInner {α : Type} [Inhabited α] (less : α → α → Bool) (a : Nat) :
    Nat → List α → List α
  | 0, l => l
  | j + 1, l =>
    if a < j + 1 ∧ lessAt less l (j + 1) j then insertionInner less a j (lswap l (j + 1) j)
    else l

/-- Outer loop of `insertionSort` over `i = a+1 .. b-1`. -/
def insertionLoop {α : Type} [Inhabited α] (less : α → α → Bool) (a b : Nat) :
    Nat → Nat → List α → List α
  | _, 0, l => l
  | i, fuel + 1, l =>
    if i < b then insertionLoop less a b (i + 1) fuel (insertionInner less a i l) else l

/-- `insertionSort(data, a, b)`. -/
def insertionSortGo {α : Type} [Inhabited α] (less : α → α → Bool) (a b : Nat) (l : List α) :
    List α :=
  insertionLoop less a b (a + 1) b l

/-- The gap-6 Shell pass `for i := a+6; i < b; i++`. -/
def shellLoop {α : Type} [Inhabited α] (less : α → α → Bool) (b : Nat) :
    Nat → Nat → List α → List α
  | _, 0, l => l
  | i, fuel + 1, l =>
    if i < b then
      shellLoop less b (i + 1) fuel (if lessAt less l i (i - 6) then lswap l i (i - 6) else l)
    else l

/-- `siftDown(data, lo, hi, first)` with the walking `root`. -/
def siftDownGo {α : Type} [Inhabited α] (less : α → α → Bool) (hi first : Nat) :
    Nat → Nat → List α → List α
  | _, 0, l => l
  | root, fuel + 1, l =>
    let child := 2 * root + 1
    if child ≥ hi then l
    else
      let child := if child + 1 < hi ∧ lessAt less l (first + child) (first + child + 1) then
        child + 1 else child
      if ¬ lessAt less l (first + root) (first + child) then l
      else siftDownGo less hi first child fuel (lswap l (first + root) (first + child))

/-- Heap construction `for i := (hi-1)/2; i >= 0; i--`. -/
def heapBuild {α : Type} [Inhabited α] (less : α → α → Bool) (hi first : Nat) :
    Nat → List α → List α
  | 0, l => siftDownGo less hi first 0 (hi + 1) l
  | i + 1, l => heapBuild less hi first i (siftDownGo less hi first (i + 1) (hi + 1) l)

/-- Heap pop `for i := hi-1; i >= 0; i--`. -/
def heapPop {α : Type} [Inhabited α] (less : α → α → Bool) (first : Nat) :
    Nat → List α → List α
  | 0, l => siftDownGo less 0 first 0 1 (lswap l first first)
  | i + 1, l => heapPop less first i (siftDownGo less (i + 1) first 0 (i + 2) (lswap l first (first + i + 1)))

/-- `heapSort(data, a, b)`. -/
def heapSortGo {α : Type} [Inhabited α] (less : α → α → Bool) (a b : Nat) (l : List α) :
    List α :=
  let hi := b - a
  if hi = 0 then l else heapPop less a (hi - 1) (heapBuild less hi a ((hi - 1) / 2) l)

/-- `medianOfThree(data, m1, m0, m2)`. -/
def medianOfThreeGo {α : Type} [Inhabited α] (less : α → α → Bool) (m1 m0 m2 : Nat)
    (l : List α) : List α :=
  let l := if lessAt less l m1 m0 then lswap l m1 m0 else l
  if lessAt less l m2 m1 then
    let l := lswap l m2 m1
    if lessAt less l m1 m0 then lswap l m1 m0 else l
  else l

/-- `for ; a < c && data.Less(a, pivot); a++`. -/
def advanceA {α : Type} [Inhabited α] (less : α → α → Bool) (l : List α) (pivot c : Nat) :
    Nat → Nat → Nat
  | a, 0 => a
  | a, fuel + 1 =>
    if a < c ∧ lessAt less l a pivot then advanceA less l pivot c (a + 1) fuel else a

/-- `for ; b < c && !data.Less(pivot, b); b++`. -/
def advanceB {α : Type} [Inhabited α] (less : α → α → Bool) (l : List α) (pivot c : Nat) :
    Nat → Nat → Nat
  | b, 0 => b
  | b, fuel + 1 =>
    if b < c ∧ ¬ lessAt less l pivot b then advanceB less l pivot c (b + 1) fuel else b

/-- `for ; b < c && data.Less(pivot, c-1); c--`. -/
def retreatC {α : Type} [Inhabited α] (less : α → α → Bool) (l : List α) (pivot b : Nat) :
    Nat → Nat → Nat
  | c, 0 => c
  | c, fuel + 1 =>
    if b < c ∧ lessAt less l pivot (c - 1) then retreatC less l pivot b (c - 1) fuel else c

/-- The central partition exchange loop of `doPivot`. -/
def partitionLoop {α : Type} [Inhabited α] (less : α → α → Bool) (pivot : Nat) :
    Nat → Nat → Nat → List α → Nat × Nat × List α
  | 0, b, c, l => (b, c, l)
  | fuel + 1, b, c, l =>
    let b2 := advanceB less l pivot c b (c + 1)
    let c2 := retreatC less l pivot b2 c (c + 1)
    if b2 ≥ c2 then (b2, c2, l)
    else partitionLoop less pivot fuel (b2 + 1) (c2 - 1) (lswap l b2 (c2 - 1))

/-- `for ; a < b && !data.Less(b-1, pivot); b--` of the protect loop. -/
def protectB {α : Type} [Inhabited α] (less : α → α → Bool) (l : List α) (pivot a : Nat) :
    Nat → Nat → Nat
  | b, 0 => b
  | b, fuel + 1 =>
    if a < b ∧ ¬ lessAt less l (b - 1) pivot then protectB less l pivot a (b - 1) fuel else b

/-- `for ; a < b && data.Less(a, pivot); a++` of the protect loop. -/
def protectA {α : Type} [Inhabited α] (less : α → α → Bool) (l : List α) (pivot b : Nat) :
    Nat → Nat → Nat
  | a, 0 => a
  | a, fuel + 1 =>
    if a < b ∧ lessAt less l a pivot then protectA less l pivot b (a + 1) fuel else a

/-- The duplicate-pivot protection exchange loop of `doPivot`. -/
def protectLoop {α : Type} [Inhabited α] (less : α → α → Bool) (pivot : Nat) :
    Nat → Nat → Nat → List α → Nat × Nat × List α
  | 0, a, b, l => (a, b, l)
  | fuel + 1, a, b, l =>
    let b2 := protectB less l pivot a b (b + 1)
    let a2 := protectA less l pivot b2 a (b2 + 1)
    if a2 ≥ b2 then (a2, b2, l)
    else protectLoop less pivot fuel (a2 + 1) (b2 - 1) (lswap l a2 (b2 - 1))

/-- The Tukey-ninther pre-pass of `doPivot` for ranges longer than 40. -/
def ninther {α : Type} [Inhabited α] (less : α → α → Bool) (lo hi : Nat) (l : List α) :
    List α :=
  if hi - lo > 40 then
    let m := (lo + hi) / 2
    let s := (hi - lo) / 8
    medianOfThreeGo less (hi - 1) (hi - 1 - s) (hi - 1 - 2 * s)
      (medianOfThreeGo less m (m - s) (m + s)
        (medianOfThreeGo less lo (lo + s) (lo + 2 * s) l))
  else l

/-- The duplicate-pivot probe of `doPivot` (the `dups` counting block),
returning the adjusted `b`, `c`, the array and the `protect` flag. -/
def pivotDups {α : Type} [Inhabited α] (less : α → α → Bool) (pivot m lo hi : Nat)
    (b c : Nat) (l : List α) : Nat × Nat × List α × Bool :=
  if ¬ (hi - c < 5) ∧ hi - c < (hi - lo) / 4 then
    let s1 : Nat × List α × Nat :=
      if ¬ lessAt less l pivot (hi - 1) then (c + 1, lswap l c (hi - 1), 1) else (c, l, 0)
    let s2 : Nat × Nat :=
      if ¬ lessAt less s1.2.1 (b - 1) pivot then (b - 1, s1.2.2 + 1) else (b, s1.2.2)
    let s3 : Nat × List α × Nat :=
      if ¬ lessAt less s1.2.1 m pivot then (s2.1 - 1, lswap s1.2.1 m (s2.1 - 1), s2.2 + 1)
      else (s2.1, s1.2.1, s2.2)
    (s3.1, s1.1, s3.2.1, decide (s3.2.2 > 1))
  else (b, c, l, decide (hi - c < 5))

/-- `doPivot(data, lo, hi)`, returning `(midlo, midhi)` and the array; the
pivot index is `lo` after `medianOfThree`. -/
def doPivotGo {α : Type} [Inhabited α] (less : α → α → Bool) (lo hi : Nat) (l : List α) :
    Nat × Nat × List α :=
  let m := (lo + hi) / 2
  let l1 := medianOfThreeGo less lo m (hi - 1) (ninther less lo hi l)
  let a := advanceA less l1 lo (hi - 1) (lo + 1) hi
  let part := partitionLoop less lo hi a (hi - 1) l1
  let adj := pivotDups less lo m lo hi part.1 part.2.1 part.2.2
  let prot :=
    if adj.2.2.2 then protectLoop less lo hi a adj.1 adj.2.2.1 else (a, adj.1, adj.2.2.1)
  (prot.2.1 - 1, adj.2.1, lswap prot.2.2 lo (prot.2.1 - 1))

/-- `quickSort(data, a, b, maxDepth)`; the Go `for b-a > 12` loop is encoded
as tail recursion, with `fuel` dominating the nesting depth (each nested call
has a strictly smaller `maxDepth`). -/
def quickSortGo {α : Type} [Inhabited α] (less : α → α → Bool) :
    Nat → Nat → Nat → Nat → List α → List α
  | 0, _, _, _, l => l
  | fuel + 1, a, b, maxD, l =>
    if b - a > 12 then
      if maxD = 0 then heapSortGo less a b l
      else
        let p := doPivotGo less a b l
        let mlo := p.1
        let mhi := p.2.1
        let l := p.2.2
        if mlo - a < b - mhi then
          quickSortGo less fuel mhi b (maxD - 1) (quickSortGo less fuel a mlo (maxD - 1) l)
        else
          quickSortGo less fuel a mlo (maxD - 1) (quickSortGo less fuel mhi b (maxD - 1) l)
    else if b - a > 1 then
      insertionSortGo less a b (shellLoop less b (a + 6) b l)
    else l

/-- `maxDepth(n)` worker. -/
def maxDepthAux : Nat → Nat → Nat
  | 0, _ => 0
  | fuel + 1, n => if n = 0 then 0 else 1 + maxDepthAux fuel (n / 2)

/-- `maxDepth(n)`: twice the bit length of `n`, the heap-sort switchover
threshold of `sort.Sort`. -/
def maxDepthGo (n : Nat) : Nat := 2 * maxDepthAux (n + 1) n

/-- `sort.Sort(data)` over a list with an element comparison. -/
def sortGo {α : Type} [Inhabited α] (less : α → α → Bool) (l : List α) : List α :=
  quickSortGo less (l.length + maxDepthGo l.length + 1) 0 l.length (maxDepthGo l.length) l

/-- Sorting a `StackSorter{Stacks, CompFunc}` with `sort.Sort`, as `main`
does for each of the three comparators. -/
def sortStacks (comp : Stack → Stack → Bool) (l : List Stack) : List Stack := sortGo comp l

/-! ## Summarizer and wait-time statistics (`main` package) -/

/-- One output row of the summarizer. -/
structure summary where
  Function : String
  Count : Nat
deriving Repr, DecidableEq

/-- First loop of `summarize`: count stacks per `Frames[0].Function` and keep
the first-encountered representative of each name.  A zero-frame stack makes
the Go code panic with an index-out-of-range — modeled as `none`. -/
def summarizeCounts : List Stack → (String → Nat) → List Stack →
    Option ((String → Nat) × List Stack)
  | [], counts, filtered => some (counts, filtered)
  | s :: rest, counts, filtered =>
    match s.Frames with
    | [] => none
    | f0 :: _ =>
      let f := f0.Function
      let filtered := if counts f = 0 then filtered ++ [s] else filtered
      summarizeCounts rest (fun g => if g = f then counts g + 1 else counts g) filtered

/-- `s.Frames[0].Function` of a representative (all representatives kept by
`summarizeCounts` have at least one frame). -/
def headFunction (s : Stack) : String := (s.Frames.headD default).Function

/-- `summarize`: count by innermost function, then sort representatives by
ascending count with `sort.Sort`. -/
def summarize (stks : List Stack) : Option (List summary) :=
  match summarizeCounts stks (fun _ => 0) [] with
  | none => none
  | some cf =>
    let counts := cf.1
    let sorted := sortGo (fun a b => decide (counts (headFunction a) < counts (headFunction b))) cf.2
    some (sorted.map fun s => { Function := headFunction s, Count := counts (headFunction s) })

/-- The wait-time statistics record of the clusterer. -/
structure waitStats where
  Average : Int
  Max : Int
  Min : Int
  Median : Int
deriving Repr, DecidableEq

/-- The accumulation loop of `compWaitStats`, with the `min == 0` "unset"
sentinel kept faithfully. -/
def waitMinMaxSum : List Stack → Int → Int → Int → Int × Int × Int
  | [], mn, mx, sum => (mn, mx, sum)
  | s :: rest, mn, mx, sum =>
    let mn := if mn = 0 ∨ s.WaitTime < mn then s.WaitTime else mn
    let mx := if s.WaitTime > mx then s.WaitTime else mx
    waitMinMaxSum rest mn mx (wrap64 (sum + s.WaitTime))

/-- `compWaitStats`: min/max/mean/median of a class's wait times.  On an
empty class the Go code divides by zero (a panic) — modeled as `none`. -/
def compWaitStats (stks : List Stack) : Option waitStats :=
  if stks.isEmpty then none
  else
    let mms := waitMinMaxSum stks 0 0 0
    let durations := sortGo (fun a b : Int => decide (a < b)) (stks.map Stack.WaitTime)
    some { Average := mms.2.2.tdiv (stks.length : Int), Max := mms.2.1, Min := mms.1,
           Median := durations.getD (durations.length / 2) 0 }

/-! ## Concrete instances used by the individual verification results -/

/-- A frameless stack with a given number and wait time (nanoseconds). -/
def bareStack (num wait : Int) : Stack :=
  { Number := num, State := "waiting", WaitTime := wait, Frames := [],
    ThreadLocked := false, CreatedBy := { Function := "", File := "", Line := 0, Entry := 0 } }

/-- The input of spec Example 1, split into lines. -/
def exampleLines : List String :=
  ["goroutine 5 [running]:", "foo.Bar()", "\t/a/b.go:10", ""]

/-- The stack `ParseStacks` actually produces for `exampleLines`. -/
def exampleStack : Stack :=
  { Number := 5, State := "running", WaitTime := 0,
    Frames := [{ Function := "foo.Bar", Params := [""], File := "/a/b.go", Line := 10, Entry := 0 }],
    ThreadLocked := false, CreatedBy := { Function := "", File := "", Line := 0, Entry := 0 } }

/-- Seven frameless stacks whose wait times (in minutes) are
`2, 1, 1, 0, 0, 0, 1`: small enough for `sort.Sort`'s Shell + insertion
path, and shaped so the gap-6 Shell pass reorders equal keys. -/
def sortInput : List Stack :=
  [bareStack 1 120000000000, bareStack 2 60000000000, bareStack 3 60000000000,
   bareStack 4 0, bareStack 5 0, bareStack 6 0, bareStack 7 60000000000]

/-- A fresh stack as produced for the header `goroutine 1 [running]:`. -/
def runningStack1 : Stack :=
  { Number := 1, State := "running", WaitTime := 0, Frames := [],
    ThreadLocked := false, CreatedBy := { Function := "", File := "", Line := 0, Entry := 0 } }

/-- Input whose second block completes a frame begun in the first block:
`foo()` is read into the pending-frame slot inside block 1, survives the
blank line and the second header, and is completed by block 2's entry line. -/
def crossBlockLines : List String :=
  ["goroutine 1 [running]:", "foo()", "", "goroutine 2 [running]:", "\t/a/b.go:10", ""]

/-- The frame that ends up attached to the *second* stack of
`crossBlockLines`: function text from block 1, file and line from block 2. -/
def crossBlockFrame : Frame :=
  { Function := "foo", Params := [""], File := "/a/b.go", Line := 10, Entry := 0 }

deriving instance DecidableEq for Except

/-!
# Theorems

Helper lemmas first (permutation facts about the sort embedding, list
facts about the filter), then one theorem per verification result.
-/

/-- Replacing the element at `k` and re-consing the old one is a permutation
of consing the new element. -/
theorem getCons_set_perm {α : Type} : ∀ (xs : List α) (k : Nat) (h : k < xs.length) (x : α),
    List.Perm (xs.get ⟨k, h⟩ :: xs.set k x) (x :: xs)
  | [], _, h, _ => absurd h (by simp)
  | y :: ys, 0, _, x => by
    simpa using List.Perm.swap x y ys
  | y :: ys, k + 1, h, x => by
    have hk : k < ys.length := by simpa using h
    have ih := getCons_set_perm ys k hk x
    have s1 : List.Perm (ys.get ⟨k, hk⟩ :: y :: ys.set k x)
        (y :: ys.get ⟨k, hk⟩ :: ys.set k x) := List.Perm.swap y (ys.get ⟨k, hk⟩) (ys.set k x)
    have s2 : List.Perm (y :: ys.get ⟨k, hk⟩ :: ys.set k x) (y :: x :: ys) :=
      List.Perm.cons y ih
    have s3 : List.Perm (y :: x :: ys) (x :: y :: ys) := List.Perm.swap x y ys
    simpa using (s1.trans s2).trans s3

/-- A two-`set` element exchange is a permutation. -/
theorem set_set_swap_perm {α : Type} :
    ∀ (l : List α) (i j : Nat) (hi : i < l.length) (hj : j < l.length),
    List.Perm ((l.set i (l.get ⟨j, hj⟩)).set j (l.get ⟨i, hi⟩)) l
  | [], _, _, hi, _ => absurd hi (by simp)
  | x :: xs, 0, 0, _, _ => by simp
  | x :: xs, 0, k + 1, _, hj => by
    simpa using getCons_set_perm xs k (by simpa using hj) x
  | x :: xs, m + 1, 0, hm, _ => by
    simpa using getCons_set_perm xs m (by simpa using hm) x
  | x :: xs, m + 1, k + 1, hm, hk => by
    simpa using List.Perm.cons x (set_set_swap_perm xs m k (by simpa using hm) (by simpa using hk))

/-- `Swap` permutes the list. -/
theorem lswap_perm {α : Type} (l : List α) (i j : Nat) : List.Perm (lswap l i j) l := by
  unfold lswap
  split
  · next h => exact set_set_swap_perm l i j h.1 h.2
  · exact List.Perm.refl l

/-- The insertion-sort inner loop permutes the list. -/
theorem insertionInner_perm {α : Type} [Inhabited α] (less : α → α → Bool) (a : Nat) :
    ∀ (j : Nat) (l : List α), List.Perm (insertionInner less a j l) l
  | 0, l => List.Perm.refl l
  | j + 1, l => by
    unfold insertionInner
    split
    · exact (insertionInner_perm less a j _).trans (lswap_perm l (j + 1) j)
    · exact List.Perm.refl l

/-- The insertion-sort outer loop permutes the list. -/
theorem insertionLoop_perm {α : Type} [Inhabited α] (less : α → α → Bool) (a b : Nat) :
    ∀ (i fuel : Nat) (l : List α), List.Perm (insertionLoop less a b i fuel l) l
  | _, 0, l => List.Perm.refl l
  | i, fuel + 1, l => by
    unfold insertionLoop
    split
    · exact (insertionLoop_perm less a b (i + 1) fuel _).trans (insertionInner_perm less a i l)
    · exact List.Perm.refl l

/-- `insertionSort` permutes the list. -/
theorem insertionSortGo_perm {α : Type} [Inhabited α] (less : α → α → Bool) (a b : Nat)
    (l : List α) : List.Perm (insertionSortGo less a b l) l :=
  insertionLoop_perm less a b (a + 1) b l

/-- The gap-6 Shell pass permutes the list. -/
theorem shellLoop_perm {α : Type} [Inhabited α] (less : α → α → Bool) (b : Nat) :
    ∀ (i fuel : Nat) (l : List α), List.Perm (shellLoop less b i fuel l) l
  | _, 0, l => List.Perm.refl l
  | i, fuel + 1, l => by
    unfold shellLoop
    split
    · refine (shellLoop_perm less b (i + 1) fuel _).trans ?_
      split
      · exact lswap_perm l i (i - 6)
      · exact List.Perm.refl l
    · exact List.Perm.refl l

/-- `siftDown` permutes the list. -/
theorem siftDownGo_perm {α : Type} [Inhabited α] (less : α → α → Bool) (hi first : Nat) :
    ∀ (root fuel : Nat) (l : List α), List.Perm (siftDownGo less hi first root fuel l) l
  | _, 0, l => List.Perm.refl l
  | root, fuel + 1, l => by
    simp only [siftDownGo]
    split
    · exact List.Perm.refl l
    · split <;> split <;>
        first
        | exact List.Perm.refl l
        | exact (siftDownGo_perm less hi first _ fuel _).trans (lswap_perm l _ _)

/-- The heap-construction loop permutes the list. -/
theorem heapBuild_perm {α : Type} [Inhabited α] (less : α → α → Bool) (hi first : Nat) :
    ∀ (i : Nat) (l : List α), List.Perm (heapBuild less hi first i l) l
  | 0, l => siftDownGo_perm less hi first 0 (hi + 1) l
  | i + 1, l =>
    (heapBuild_perm less hi first i _).trans (siftDownGo_perm less hi first (i + 1) (hi + 1) l)

/-- The heap-pop loop permutes the list. -/
theorem heapPop_perm {α : Type} [Inhabited α] (less : α → α → Bool) (first : Nat) :
    ∀ (i : Nat) (l : List α), List.Perm (heapPop less first i l) l
  | 0, l => (siftDownGo_perm less 0 first 0 1 _).trans (lswap_perm l first first)
  | i + 1, l =>
    (heapPop_perm less first i _).trans
      ((siftDownGo_perm less (i + 1) first 0 (i + 2) _).trans (lswap_perm l first (first + i + 1)))

/-- `heapSort` permutes the list. -/
theorem heapSortGo_perm {α : Type} [Inhabited α] (less : α → α → Bool) (a b : Nat)
    (l : List α) : List.Perm (heapSortGo less a b l) l := by
  simp only [heapSortGo]
  split
  · exact List.Perm.refl l
  · exact (heapPop_perm less a _ _).trans (heapBuild_perm less (b - a) a _ l)

/-- `medianOfThree` permutes the list. -/
theorem medianOfThreeGo_perm {α : Type} [Inhabited α] (less : α → α → Bool) (m1 m0 m2 : Nat)
    (l : List α) : List.Perm (medianOfThreeGo less m1 m0 m2 l) l := by
  simp only [medianOfThreeGo]
  split <;> (try split) <;> (try split) <;>
    first
    | exact ((lswap_perm _ _ _).trans (lswap_perm _ _ _)).trans (lswap_perm _ _ _)
    | exact (lswap_perm _ _ _).trans (lswap_perm _ _ _)
    | exact lswap_perm _ _ _
    | exact List.Perm.refl _

/-- The central partition loop permutes the list. -/
theorem partitionLoop_perm {α : Type} [Inhabited α] (less : α → α → Bool) (pivot : Nat) :
    ∀ (fuel b c : Nat) (l : List α), List.Perm (partitionLoop less pivot fuel b c l).2.2 l
  | 0, _, _, l => List.Perm.refl l
  | fuel + 1, b, c, l => by
    simp only [partitionLoop]
    split
    · exact List.Perm.refl l
    · exact (partitionLoop_perm less pivot fuel _ _ _).trans (lswap_perm l _ _)

/-- The duplicate-protection loop permutes the list. -/
theorem protectLoop_perm {α : Type} [Inhabited α] (less : α → α → Bool) (pivot : Nat) :
    ∀ (fuel a b : Nat) (l : List α), List.Perm (protectLoop less pivot fuel a b l).2.2 l
  | 0, _, _, l => List.Perm.refl l
  | fuel + 1, a, b, l => by
    simp only [protectLoop]
    split
    · exact List.Perm.refl l
    · exact (protectLoop_perm less pivot fuel _ _ _).trans (lswap_perm l _ _)

/-- The ninther pre-pass permutes the list. -/
theorem ninther_perm {α : Type} [Inhabited α] (less : α → α → Bool) (lo hi : Nat)
    (l : List α) : List.Perm (ninther less lo hi l) l := by
  simp only [ninther]
  split
  · exact (medianOfThreeGo_perm _ _ _ _ _).trans
      ((medianOfThreeGo_perm _ _ _ _ _).trans (medianOfThreeGo_perm _ _ _ _ _))
  · exact List.Perm.refl l

/-- The duplicate-pivot probe permutes the list. -/
theorem pivotDups_perm {α : Type} [Inhabited α] (less : α → α → Bool) (pivot m lo hi b c : Nat)
    (l : List α) : List.Perm (pivotDups less pivot m lo hi b c l).2.2.1 l := by
  simp only [pivotDups]
  split
  · split <;> split <;> split <;> dsimp only <;>
      first
      | exact (lswap_perm _ _ _).trans (lswap_perm _ _ _)
      | exact lswap_perm _ _ _
      | exact List.Perm.refl l
  · exact List.Perm.refl l

/-- `doPivot` permutes the list. -/
theorem doPivotGo_perm {α : Type} [Inhabited α] (less : α → α → Bool) (lo hi : Nat)
    (l : List α) : List.Perm (doPivotGo less lo hi l).2.2 l := by
  simp only [doPivotGo]
  generalize hl1 : medianOfThreeGo less lo ((lo + hi) / 2) (hi - 1) (ninther less lo hi l) = l1
  have h1 : List.Perm l1 l := by
    rw [← hl1]
    exact (medianOfThreeGo_perm _ _ _ _ _).trans (ninther_perm _ _ _ _)
  generalize ha : advanceA less l1 lo (hi - 1) (lo + 1) hi = a
  generalize hpart : partitionLoop less lo hi a (hi - 1) l1 = part
  have h2 : List.Perm part.2.2 l := by
    rw [← hpart]
    exact (partitionLoop_perm _ _ _ _ _ _).trans h1
  generalize hadj : pivotDups less lo ((lo + hi) / 2) lo hi part.1 part.2.1 part.2.2 = adj
  have h3 : List.Perm adj.2.2.1 l := by
    rw [← hadj]
    exact (pivotDups_perm _ _ _ _ _ _ _ _).trans h2
  refine (lswap_perm _ _ _).trans ?_
  split
  · exact (protectLoop_perm _ _ _ _ _ _).trans h3
  · exact h3

/-- `quickSort` permutes the list. -/
theorem quickSortGo_perm {α : Type} [Inhabited α] (less : α → α → Bool) :
    ∀ (fuel a b maxD : Nat) (l : List α), List.Perm (quickSortGo less fuel a b maxD l) l
  | 0, _, _, _, l => List.Perm.refl l
  | fuel + 1, a, b, maxD, l => by
    simp only [quickSortGo]
    split
    · split
      · exact heapSortGo_perm less a b l
      · split
        · exact (quickSortGo_perm less fuel _ _ _ _).trans
            ((quickSortGo_perm less fuel _ _ _ _).trans (doPivotGo_perm less a b l))
        · exact (quickSortGo_perm less fuel _ _ _ _).trans
            ((quickSortGo_perm less fuel _ _ _ _).trans (doPivotGo_perm less a b l))
    · split
      · exact (insertionSortGo_perm less a b _).trans (shellLoop_perm less b (a + 6) b l)
      · exact List.Perm.refl l

/-- `sort.Sort` permutes the list. -/
theorem sortGo_perm {α : Type} [Inhabited α] (less : α → α → Bool) (l : List α) :
    List.Perm (sortGo less l) l :=
  quickSortGo_perm less _ 0 l.length (maxDepthGo l.length) l

set_option maxHeartbeats 4000000 in
/-- Any run of the parse loop ends in `.ok`, or in an `.error` whose line
number lies strictly beyond the lines already consumed and within the
remaining input (strong induction on a length bound, since the `created by`
branch consumes two lines at once). -/
theorem parseStacksLoop_ok_or_lined (re : Option (String → Nat)) :
    ∀ (k : Nat) (lines : List String), lines.length ≤ k →
    ∀ (n0 : Nat) (cur : Option Stack) (stks : List Stack) (frame : Option Frame),
    (∃ out, parseStacksLoop re lines n0 cur stks frame = .ok out) ∨
    (∃ m msg, parseStacksLoop re lines n0 cur stks frame = .error (m, msg) ∧
      n0 < m ∧ m ≤ n0 + lines.length) := by
  intro k
  induction k with
  | zero =>
    intro lines hle n0 cur stks frame
    have hnil : lines = [] := List.length_eq_zero.mp (Nat.le_zero.mp hle)
    subst hnil
    exact Or.inl ⟨_, rfl⟩
  | succ k ih =>
    intro lines hle n0 cur stks frame
    match lines with
    | [] => exact Or.inl ⟨_, rfl⟩
    | rawLine :: rest =>
      have hrest : rest.length ≤ k := by
        have := List.length_cons rawLine rest ▸ hle
        omega
      cases frame <;>
        (simp only [parseStacksLoop]
         repeat' split) <;>
        first
        | exact Or.inr ⟨_, _, rfl, by omega,
            by (try simp only [List.length_cons]); omega⟩
        | (refine (ih _ ?_ _ _ _ _).imp id ?_
           · (try simp only [List.length_cons] at hrest ⊢); omega
           · rintro ⟨m, msg, hm, hb1, hb2⟩
             exact ⟨m, msg, hm, by omega,
               by (try simp only [List.length_cons] at hb2 ⊢); omega⟩)

/-- Filtering with two filters in either order keeps the same stacks. -/
theorem applyFilters_pair_comm (l : List Stack) (f1 f2 : Stack → Bool) :
    ApplyFilters l [f1, f2] = ApplyFilters l [f2, f1] := by
  induction l with
  | nil => rfl
  | cons s rest ih =>
    by_cases h1 : f1 s <;> by_cases h2 : f2 s <;>
      simp [ApplyFilters, h1, h2, ih]

/-- Re-filtering an already-filtered collection by one of its filters is the
identity. -/
theorem applyFilters_idem (l : List Stack) (f1 f2 : Stack → Bool) :
    ApplyFilters (ApplyFilters l [f1, f2]) [f1] = ApplyFilters l [f1, f2] := by
  induction l with
  | nil => rfl
  | cons s rest ih =>
    by_cases h1 : f1 s <;> by_cases h2 : f2 s <;>
      simp [ApplyFilters, h1, h2, ih]

/-- The filtered collection is a sublist of the input: surviving stacks keep
their input order. -/
theorem applyFilters_sublist (l : List Stack) (fs : List (Stack → Bool)) :
    (ApplyFilters l fs).Sublist l := by
  induction l with
  | nil => exact List.Sublist.refl _
  | cons s rest ih =>
    simp only [ApplyFilters]
    split
    · exact ih.cons₂ s
    · exact ih.cons s

/-- Membership in the filtered collection is membership in the input plus
satisfaction of every filter. -/
theorem applyFilters_mem (l : List Stack) (fs : List (Stack → Bool)) (s : Stack) :
    s ∈ ApplyFilters l fs ↔ s ∈ l ∧ ∀ f ∈ fs, f s = true := by
  induction l with
  | nil => simp [ApplyFilters]
  | cons t rest ih =>
    simp only [ApplyFilters]
    split
    · next h =>
      simp only [List.mem_cons, ih]
      constructor
      · rintro (rfl | ⟨hs, hf⟩)
        · exact ⟨Or.inl rfl, by simpa [List.all_eq_true] using h⟩
        · exact ⟨Or.inr hs, hf⟩
      · rintro ⟨rfl | hs, hf⟩
        · exact Or.inl rfl
        · exact Or.inr ⟨hs, hf⟩
    · next h =>
      simp only [ih, List.mem_cons]
      constructor
      · rintro ⟨hs, hf⟩
        exact ⟨Or.inr hs, hf⟩
      · rintro ⟨rfl | hs, hf⟩
        · exact absurd (by simpa [List.all_eq_true] using hf) h
        · exact ⟨hs, hf⟩

/-! ## The verification results, one theorem per claim -/

/-- C1: the claim says a zero-frame stack must not crash the summarizer and
that `summarize` still returns a summary list for the remaining stacks.  The
code indexes `s.Frames[0]` unguarded: with a frameless stack anywhere in the
collection the whole call panics (modeled as `none`) even though the other
stack is summarizable — the same collection without the frameless stack
summarizes normally. -/
theorem c1_summarize_faults_on_frameless :
    summarize [exampleStack, bareStack 9 0] = none ∧
    summarize [exampleStack] = some [{ Function := "foo.Bar", Count := 1 }] :=
  ⟨by decide, by decide⟩

/-- C2: `ParseStacks` always returns either a complete stack sequence or a
single error annotated with a line number between 1 and the number of input
lines; the recovered panics (header index, nil current stack, bad function
slice) are among the error cases, and no partial stack list accompanies an
error. -/
theorem c2_parse_ok_or_line_annotated :
    (∀ (re : Option (String → Nat)) (lines : List String),
      (∃ out, ParseStacks re lines = .ok out) ∨
      (∃ m msg, ParseStacks re lines = .error (m, msg) ∧ 1 ≤ m ∧ m ≤ lines.length)) ∧
    ParseStacks none ["goroutine"] = .error (1, panicIndexMsg) ∧
    ParseStacks none ["created by foo", "\t/a/b.go:1"] = .error (1, panicNilMsg) ∧
    ParseStacks none ["goroutine 1 [running]:", "f("] = .error (2, panicSliceMsg) := by
  refine ⟨?_, by decide, by decide, by decide⟩
  intro re lines
  refine (parseStacksLoop_ok_or_lined re lines.length lines (Nat.le_refl _) 0 none [] none).imp
    id ?_
  rintro ⟨m, msg, hm, h1, h2⟩
  exact ⟨m, msg, hm, h1, by omega⟩

/-- C2 witness: the theorem applied to the Example 1 input. -/
theorem c2_instance :
    (∃ out, ParseStacks none exampleLines = .ok out) ∨
    (∃ m msg, ParseStacks none exampleLines = .error (m, msg) ∧
      1 ≤ m ∧ m ≤ exampleLines.length) :=
  c2_parse_ok_or_line_annotated.1 none exampleLines

/-- C3 counterexample: parsing the Example 1 input yields the claimed stack
except that the frame's parameter list is `[""]` — `strings.Split("", ", ")`
returns a one-element slice holding the empty string — not the empty list
the claim states. -/
theorem c3_empty_params_counterexample :
    ParseStacks none exampleLines = .ok [exampleStack] ∧
    exampleStack.Frames.map Frame.Params ≠ [([] : List String)] :=
  ⟨by decide, by decide⟩

/-- C3 amended: the input parses to exactly one stack with number 5, state
"running", zero wait time, and one frame with function "foo.Bar", parameter
list `[""]`, file "/a/b.go", line 10. -/
theorem c3_parse_example_amended :
    ParseStacks none exampleLines = .ok [exampleStack] := by decide

/-- C4 counterexample: `sort.Sort` is not stable.  For seven stacks with wait
times (in minutes) `2,1,1,0,0,0,1`, the stacks numbered 2 and 7 have equal
sort keys and stack 2 precedes stack 7 in the input, yet after sorting by
wait time stack 7 precedes stack 2 (the gap-6 Shell pass moves it across). -/
theorem c4_sort_not_stable :
    (sortStacks CompWaitTime sortInput).map Stack.Number = [4, 5, 6, 7, 2, 3, 1] ∧
    (bareStack 2 60000000000).WaitTime = (bareStack 7 60000000000).WaitTime ∧
    sortInput.indexOf (bareStack 2 60000000000) < sortInput.indexOf (bareStack 7 60000000000) ∧
    (sortStacks CompWaitTime sortInput).indexOf (bareStack 7 60000000000) <
      (sortStacks CompWaitTime sortInput).indexOf (bareStack 2 60000000000) :=
  ⟨by decide, by decide, by decide, by decide⟩

/-- C4 amended: sorting a stack collection by any comparator rearranges it
into a permutation of the input (no stack is lost or duplicated), but the
sort is not stable: stacks with equal sort keys may lose their relative
input order. -/
theorem c4_sort_is_permutation (comp : Stack → Stack → Bool) (l : List Stack) :
    List.Perm (sortStacks comp l) l :=
  sortGo_perm comp l

/-- C4 witness: the permutation theorem at the counterexample input. -/
theorem c4_perm_instance : List.Perm (sortStacks CompWaitTime sortInput) sortInput :=
  c4_sort_is_permutation CompWaitTime sortInput

/-- C5: the claim says the clusterer's wait-time statistics satisfy
`min ≤ mean` even for classes containing zero wait times.  The `min == 0`
"unset" sentinel breaks this: for the class with wait times 0 and 5 minutes,
the computed minimum is 5 minutes (the zero was treated as unset and then
overwritten) while the mean is 2.5 minutes. -/
theorem c5_min_exceeds_mean :
    ∃ ws, compWaitStats [bareStack 1 0, bareStack 2 300000000000] = some ws ∧
      ws.Average < ws.Min :=
  ⟨{ Average := 150000000000, Max := 300000000000, Min := 300000000000,
     Median := 300000000000 }, by decide, by decide⟩

/-- C6 counterexample: with no stack in progress, stray non-header lines are
not tolerated as no-ops — the first is read as a pending frame's function
line and the second is parsed as its entry line, aborting the whole parse
with a line-2 error. -/
theorem c6_stray_lines_abort_parse :
    ParseStacks none ["x", "y"] = .error (2, "expected a colon: " ++ "'\\x00'") := by decide

/-- C6 amended: in the Idle state a stray line (non-blank, not a header, not
a `created by` line) is not a no-op: the emitted stacks are unchanged but the
line is read into the pending-frame slot, affecting how later lines parse. -/
theorem c6_stray_line_becomes_pending_frame (line : String) (rest : List String)
    (n : Nat) (stks : List Stack) (f : Frame)
    (hg : goHasPref line "goroutine" = false) (hb : ¬ line = "")
    (hc : goHasPref line "created by" = false) (hf : parseFuncLine line = .ok f) :
    parseStacksLoop none (line :: rest) n none stks none =
      parseStacksLoop none rest (n + 1) none stks (some f) := by
  simp [parseStacksLoop, stripPref, hg, hb, hc, hf]

/-- C6 witness: the amended step theorem at the stray line "x". -/
theorem c6_pending_frame_instance :
    parseStacksLoop none ["x"] 0 none [] none =
      parseStacksLoop none [] 1 none []
        (some { Function := "x", Params := [], File := "", Line := 0, Entry := 0 }) :=
  c6_stray_line_becomes_pending_frame "x" [] 0 []
    { Function := "x", Params := [], File := "", Line := 0, Entry := 0 }
    (by decide) (by decide) (by decide) (by decide)

/-- C7: the claim says the entry-line parser's formatting error names the
offending input line.  It does fail on zero or several colons, but the Go
code formats the named `int64` return `line` (still 0) with `%q`, so the
message is `expected a colon: '\x00'` and does not contain the input. -/
theorem c7_colon_error_message_misquotes :
    parseEntryLine "abc" = .error ("expected a colon: " ++ "'\\x00'") ∧
    parseEntryLine "a:b:c" = .error ("expected a colon: " ++ "'\\x00'") ∧
    goContains ("expected a colon: " ++ "'\\x00'") "abc" = false ∧
    goContains ("expected a colon: " ++ "'\\x00'") "a:b:c" = false :=
  ⟨by decide, by decide, by decide, by decide⟩

/-- C8 counterexample: a stack parsed from a block with no `created by` line
still renders with a creator trailer — `Stack.String` appends
`CreatedBy.String()` unconditionally, producing the degenerate trailer
`created by \n\t:0`. -/
theorem c8_creatorless_renders_trailer :
    stackString exampleStack =
      "goroutine 5 [running]:\nfoo.Bar()\n\t/a/b.go:10\ncreated by \n\t:0\n" ∧
    goContains (stackString exampleStack) "created by " = true :=
  ⟨by decide, by decide⟩

/-- C8 amended: the rendering includes the creator trailer unconditionally;
for a stack whose created-by record is the zero value (no `created by` line
was parsed) the rendering ends with the degenerate trailer
`created by \n\t:0\n`. -/
theorem c8_trailer_always_present (s : Stack)
    (h : s.CreatedBy = { Function := "", File := "", Line := 0, Entry := 0 }) :
    ∃ pre, stackString s = pre ++ "created by \n\t:0\n" := by
  have hcb : createdByString { Function := "", File := "", Line := 0, Entry := 0 } ++ "\n" =
      "created by \n\t:0\n" := by decide
  rw [← hcb]
  simp only [stackString, h]
  exact ⟨_, rfl⟩

/-- C8 witness: the amended theorem at the Example 1 stack. -/
theorem c8_trailer_instance :
    ∃ pre, stackString exampleStack = pre ++ "created by \n\t:0\n" :=
  c8_trailer_always_present exampleStack rfl

/-- C9: filtering keeps a stack iff it satisfies every filter, preserves
input order (the survivors form a sublist), is order-independent across two
filters, and re-applying one of the filters changes nothing. -/
theorem c9_filters_conjunctive_stable_commutative_idempotent
    (l : List Stack) (f1 f2 : Stack → Bool) (fs : List (Stack → Bool)) :
    ApplyFilters l [f1, f2] = ApplyFilters l [f2, f1] ∧
    ApplyFilters (ApplyFilters l [f1, f2]) [f1] = ApplyFilters l [f1, f2] ∧
    (ApplyFilters l fs).Sublist l ∧
    (∀ s, s ∈ ApplyFilters l fs ↔ s ∈ l ∧ ∀ f ∈ fs, f s = true) :=
  ⟨applyFilters_pair_comm l f1 f2, applyFilters_idem l f1 f2,
   applyFilters_sublist l fs, fun s => applyFilters_mem l fs s⟩

/-- C9 witness: order-independence at a concrete collection and filters. -/
theorem c9_filters_instance :
    ApplyFilters [exampleStack] [MatchState "running", TimeGreaterThan 0] =
      ApplyFilters [exampleStack] [TimeGreaterThan 0, MatchState "running"] :=
  (c9_filters_conjunctive_stable_commutative_idempotent [exampleStack]
    (MatchState "running") (TimeGreaterThan 0) []).1

/-- C10: the pending-frame slot survives both stack-closing events — a blank
line and a new header line leave it untouched — it is dropped silently at
stream exhaustion, and on a concrete input a frame begun in block 1
(`foo()`) is completed by block 2's entry line and attached to stack 2. -/
theorem c10_pending_frame_crosses_blocks :
    (∀ (rest : List String) (n : Nat) (cur : Option Stack) (stks : List Stack)
       (frame : Option Frame),
       parseStacksLoop none ("" :: rest) n cur stks frame =
         parseStacksLoop none rest (n + 1) none (stks ++ cur.toList) frame) ∧
    (∀ (line : String) (rest : List String) (n : Nat) (cur : Option Stack)
       (stks : List Stack) (frame : Option Frame) (st : Stack),
       goHasPref line "goroutine" = true → parseHeaderLine line = .ok st →
       parseStacksLoop none (line :: rest) n cur stks frame =
         parseStacksLoop none rest (n + 1) (some st) (stks ++ cur.toList) frame) ∧
    (∀ (n : Nat) (cur : Option Stack) (stks : List Stack) (frame : Option Frame),
       parseStacksLoop none [] n cur stks frame = .ok (stks ++ cur.toList)) ∧
    ParseStacks none crossBlockLines =
      .ok [runningStack1,
           { Number := 2, State := "running", WaitTime := 0, Frames := [crossBlockFrame],
             ThreadLocked := false,
             CreatedBy := { Function := "", File := "", Line := 0, Entry := 0 } }] := by
  refine ⟨?_, ?_, ?_, by decide⟩
  · intro rest n cur stks frame
    have h1 : goHasPref "" "goroutine" = false := by decide
    have h2 : goHasPref "" "created by" = false := by decide
    cases frame <;> simp [parseStacksLoop, stripPref, h1, h2]
  · intro line rest n cur stks frame st hg hst
    cases frame <;> simp [parseStacksLoop, stripPref, hg, hst]
  · intro n cur stks frame
    rfl

/-- C10 witness: the header step at a concrete line, current stack and
pending frame. -/
theorem c10_header_step_instance :
    parseStacksLoop none ["goroutine 1 [running]:"] 3 none [] (some crossBlockFrame) =
      parseStacksLoop none [] 4 (some runningStack1) [] (some crossBlockFrame) :=
  c10_pending_frame_crosses_blocks.2.1 "goroutine 1 [running]:" [] 3 none []
    (some crossBlockFrame) runningStack1 (by decide) (by decide)

end Stackparse
